import Mathlib

/-!
Verification of the on-demand stream process supervisor
(`app/services/stream_manager.py` of the uniguard-pro-bridge repository).

The supervisor is shallowly embedded: the registry (`StreamManager._streams`)
is an association list from camera id to stream record, the operating system
(live processes, existing directories) is an explicit `SystemState`, and the
blocking readiness poll is driven by an explicit list of observations.
-/

/-- Stream state of a record: the `status` field of `_StreamProcess`
(`"starting" | "streaming" | "error"`). -/
inductive StreamStatus where
  | starting
  | streaming
  | error
  deriving DecidableEq, Repr

/-- Rendering of `StreamStatus` to the string stored in the Python field. -/
def statusString : StreamStatus → String
  | .starting => "starting"
  | .streaming => "streaming"
  | .error => "error"

/-- Embedding of the `_StreamProcess` dataclass. The `subprocess.Popen`
handle is modelled by its pid; liveness of the process (`poll() is None`)
lives in `SystemState.alive`. Timestamps are integers (seconds). -/
structure StreamRecord where
  camera_id : Nat
  rtsp_url : String
  pid : Nat
  hls_dir : String
  started_at : Int
  last_activity : Int
  status : StreamStatus
  deriving DecidableEq, Repr

/-- Mutable fields of `StreamManager`: the registry `_streams` (an insertion
ordered mapping with unique keys, embedded as an association list) and
whether the cleanup task `_cleanup_task` is running. -/
structure ManagerState where
  streams : List (Nat × StreamRecord)
  cleanup_running : Bool
  deriving DecidableEq, Repr

/-- Operating-system state seen by the supervisor: pids whose process is
still running (`poll() is None`) and filesystem directories that exist. -/
structure SystemState where
  alive : List Nat
  dirs : List String
  deriving DecidableEq, Repr

/-- The configuration fields of `Settings` consumed by the stream manager. -/
structure Settings where
  hls_dir : String
  ffmpeg_path : String
  stream_timeout_seconds : Int
  hls_segment_time : Nat
  hls_list_size : Nat
  deriving DecidableEq, Repr

/-- `self._streams.get(camera_id)`: first (and with unique keys, only)
binding of the key in the association list. -/
def findStream : List (Nat × StreamRecord) → Nat → Option StreamRecord
  | [], _ => none
  | (k, r) :: rest, id => if k = id then some r else findStream rest id

/-- `self._streams.pop(camera_id, None)`'s effect on the mapping: drop every
binding of the key (with unique keys, the one binding). -/
def removeStream (l : List (Nat × StreamRecord)) (id : Nat) : List (Nat × StreamRecord) :=
  l.filter (fun p => p.1 ≠ id)

/-- `self._streams[camera_id] = r`: replace the existing binding in place, or
append a new binding at the end (dict insertion order). -/
def setStream (l : List (Nat × StreamRecord)) (id : Nat) (r : StreamRecord) :
    List (Nat × StreamRecord) :=
  if l.any (fun p => p.1 = id) then
    l.map (fun p => if p.1 = id then (id, r) else p)
  else
    l ++ [(id, r)]

/-- `Path(settings.hls_dir) / str(camera_id)`. -/
def hlsDirOf (s : Settings) (camera_id : Nat) : String :=
  s.hls_dir ++ "/" ++ toString camera_id

/-- `StreamManager._hls_url`: the output locator returned for a camera. -/
def hls_url (camera_id : Nat) : String :=
  "/hls/" ++ toString camera_id ++ "/index.m3u8"

/-- `hls_dir.mkdir(parents=True, exist_ok=True)`: create the directory if
absent. -/
def mkdirP (sys : SystemState) (d : String) : SystemState :=
  if d ∈ sys.dirs then sys else { sys with dirs := sys.dirs ++ [d] }

/-- The FFmpeg command line built by `start_stream` (lines 81-96). The spawn
oracle abstracts `subprocess.Popen` of this command. -/
def ffmpegCmd (s : Settings) (rtsp_url m3u8 seg_pattern : String) : List String :=
  [s.ffmpeg_path, "-loglevel", "error", "-rtsp_transport", "tcp",
   "-i", rtsp_url, "-c:v", "copy", "-an", "-f", "hls",
   "-hls_time", toString s.hls_segment_time,
   "-hls_list_size", toString s.hls_list_size,
   "-hls_flags", "delete_segments+append_list",
   "-hls_segment_type", "mpegts",
   "-hls_segment_filename", seg_pattern, m3u8]

/-- Lines 198-206 of `_terminate`: when the process is still running, send
`terminate()` and wait (killing after the grace period) — afterwards the pid
is no longer alive; a dead process is left as is. -/
def killPid (sys : SystemState) (pid : Nat) : SystemState :=
  if pid ∈ sys.alive then { sys with alive := sys.alive.filter (fun p => p ≠ pid) }
  else sys

/-- Lines 208-209 of `_terminate`: `if stream.hls_dir.exists():
shutil.rmtree(...)`, with the removal modelled as succeeding. -/
def rmdir (sys : SystemState) (d : String) : SystemState :=
  if d ∈ sys.dirs then { sys with dirs := sys.dirs.filter (fun x => x ≠ d) }
  else sys

/-- `StreamManager._terminate`: pop the record; if absent, return unchanged.
Otherwise stop the process when still alive, then delete the record's HLS
directory when it exists. -/
def terminate (st : ManagerState) (sys : SystemState) (camera_id : Nat) :
    ManagerState × SystemState :=
  match findStream st.streams camera_id with
  | none => (st, sys)
  | some r =>
    ({ st with streams := removeStream st.streams camera_id },
     rmdir (killPid sys r.pid) r.hls_dir)

/-- `StreamManager.stop_stream`: `_terminate` under the registry lock. -/
def stop_stream (st : ManagerState) (sys : SystemState) (camera_id : Nat) :
    ManagerState × SystemState :=
  terminate st sys camera_id

/-- `StreamManager.touch_activity`: refresh `last_activity` when a record
exists; otherwise do nothing. -/
def touch_activity (st : ManagerState) (camera_id : Nat) (now : Int) : ManagerState :=
  match findStream st.streams camera_id with
  | none => st
  | some r =>
    { st with streams := setStream st.streams camera_id { r with last_activity := now } }

/-- The dict returned by `StreamManager.get_status`, with the optional keys
made explicit. -/
structure StatusReport where
  status : String
  hls_url : Option String
  started_at : Option Int
  last_activity : Option Int
  pid : Option Nat
  deriving DecidableEq, Repr

/-- `StreamManager.get_status`. The second component is the manager state
after the call: the method only reads, so it is returned unchanged. -/
def get_status (st : ManagerState) (sys : SystemState) (camera_id : Nat) :
    StatusReport × ManagerState :=
  match findStream st.streams camera_id with
  | none =>
    ({ status := "idle", hls_url := none, started_at := none,
       last_activity := none, pid := none }, st)
  | some r =>
    if r.pid ∈ sys.alive then
      ({ status := statusString r.status, hls_url := some (hls_url camera_id),
         started_at := some r.started_at, last_activity := some r.last_activity,
         pid := some r.pid }, st)
    else
      ({ status := "error", hls_url := none, started_at := none,
         last_activity := none, pid := none }, st)

/-- `StreamManager.active_count`. -/
def active_count (st : ManagerState) : Nat :=
  st.streams.length

/-- What one polling instant of `_wait_ready` observes: either the registry
no longer holds the record (`gone` — stopped externally), or the record is
present with the given process liveness (`poll() is None`) and current size
of the `index.m3u8` playlist (0 when the file does not exist). -/
inductive WaitObs where
  | gone
  | present (alive : Bool) (playlistSize : Nat)
  deriving DecidableEq, Repr

/-- How the `_wait_ready` polling loop returned. -/
inductive WaitOutcome where
  | stoppedExternally
  | markedError
  | markedStreaming
  | timedOutStreaming
  | timedOutNoop
  deriving DecidableEq, Repr

/-- `StreamManager._wait_ready`: each element of `obs` is one loop iteration
before the deadline, `final` is the observation at the fetch after the
deadline has passed. Returns the record as left in the registry (`none` when
it had been removed externally) together with the outcome. Per iteration,
in priority order: record absent — return at once; process dead — mark
`error` and return; playlist present and non-empty — mark `streaming` and
return; otherwise sleep and poll again. On deadline with the process still
alive, optimistically mark `streaming`. -/
def wait_ready : List WaitObs → WaitObs → StreamRecord → Option StreamRecord × WaitOutcome
  | [], final, r =>
    match final with
    | .gone => (none, .timedOutNoop)
    | .present alive _ =>
      if alive then (some { r with status := StreamStatus.streaming }, .timedOutStreaming)
      else (some r, .timedOutNoop)
  | o :: rest, final, r =>
    match o with
    | .gone => (none, .stoppedExternally)
    | .present alive size =>
      if !alive then (some { r with status := StreamStatus.error }, .markedError)
      else if 0 < size then (some { r with status := StreamStatus.streaming }, .markedStreaming)
      else wait_ready rest final r

/-- Result of a `start_stream` call: either the `RuntimeError` raised when
`subprocess.Popen` fails (`FileNotFoundError`), carrying the manager and
system state at the raise, or a normal return carrying the final states,
the returned locator, and how many processes the call spawned. -/
inductive StartResult where
  | launchError (st : ManagerState) (sys : SystemState)
  | ok (st : ManagerState) (sys : SystemState) (locator : String) (spawned : Nat)
  deriving DecidableEq, Repr

/-- Manager state carried by a `StartResult`. -/
def StartResult.mgrState : StartResult → ManagerState
  | .launchError st _ => st
  | .ok st _ _ _ => st

/-- System state carried by a `StartResult`. -/
def StartResult.sysState : StartResult → SystemState
  | .launchError _ sys => sys
  | .ok _ sys _ _ => sys

/-- Locator returned by a `start_stream` call, when it returned normally. -/
def StartResult.locator : StartResult → Option String
  | .launchError _ _ => none
  | .ok _ _ loc _ => some loc

/-- Number of processes spawned by a `start_stream` call. -/
def StartResult.spawnCount : StartResult → Nat
  | .launchError _ _ => 0
  | .ok _ _ _ n => n

/-- Whether the call raised the launch `RuntimeError`. -/
def StartResult.isLaunchError : StartResult → Bool
  | .launchError _ _ => true
  | .ok _ _ _ _ => false

/-- Whether the call returned normally. -/
def StartResult.isOk : StartResult → Bool
  | .launchError _ _ => false
  | .ok _ _ _ _ => true

/-- Register the pid of a freshly spawned process as alive. -/
def addAlive (sys : SystemState) (pid : Nat) : SystemState :=
  if pid ∈ sys.alive then sys else { sys with alive := sys.alive ++ [pid] }

/-- The record `start_stream` builds for a fresh spawn (`_StreamProcess(...)`
with `started_at = last_activity = now`, `status = "starting"`). -/
def newRecord (s : Settings) (camera_id : Nat) (rtsp_url : String) (now : Int) (pid : Nat) :
    StreamRecord :=
  { camera_id := camera_id, rtsp_url := rtsp_url, pid := pid,
    hls_dir := hlsDirOf s camera_id, started_at := now, last_activity := now,
    status := StreamStatus.starting }

/-- The spawn half of `start_stream` (lines 75-116): create the HLS
directory, then attempt `subprocess.Popen` — the oracle `spawn` is `none`
when the executable is missing (`FileNotFoundError`, re-raised as
`RuntimeError`) and `some pid` on success, in which case the new record is
registered. -/
def spawnPath (s : Settings) (st : ManagerState) (sys : SystemState)
    (camera_id : Nat) (rtsp_url : String) (now : Int) (spawn : Option Nat) : StartResult :=
  let dir := hlsDirOf s camera_id
  let sys1 := mkdirP sys dir
  match spawn with
  | none => .launchError st sys1
  | some pid =>
    let r := newRecord s camera_id rtsp_url now pid
    .ok { st with streams := setStream st.streams camera_id r } (addAlive sys1 pid)
      (hls_url camera_id) 1

/-- The critical section of `StreamManager.start_stream` (held under
`self._lock`): an existing record with a live process only gets its
`last_activity` refreshed and the locator is returned without spawning; an
existing record with a dead process is cleaned up via `_terminate` before
the spawn path; with no record the spawn path runs directly. -/
def start_stream_locked (s : Settings) (st : ManagerState) (sys : SystemState)
    (camera_id : Nat) (rtsp_url : String) (now : Int) (spawn : Option Nat) : StartResult :=
  match findStream st.streams camera_id with
  | some ex =>
    if ex.pid ∈ sys.alive then
      .ok { st with streams :=
              setStream st.streams camera_id { ex with last_activity := now } }
        sys (hls_url camera_id) 0
    else
      let p := terminate st sys camera_id
      spawnPath s p.1 p.2 camera_id rtsp_url now spawn
  | none => spawnPath s st sys camera_id rtsp_url now spawn

/-- Full `StreamManager.start_stream`: the locked section, then — only when
a process was actually spawned — `_wait_ready` outside the lock, whose
status writes (or external removal) are folded back into the registry,
before the locator is returned. The refresh path returns directly from
inside the lock. -/
def start_stream (s : Settings) (st : ManagerState) (sys : SystemState)
    (camera_id : Nat) (rtsp_url : String) (now : Int) (spawn : Option Nat)
    (obs : List WaitObs) (final : WaitObs) : StartResult :=
  match start_stream_locked s st sys camera_id rtsp_url now spawn with
  | .launchError st1 sys1 => .launchError st1 sys1
  | .ok st1 sys1 loc 0 => .ok st1 sys1 loc 0
  | .ok st1 sys1 loc (n + 1) =>
    match findStream st1.streams camera_id with
    | none => .ok st1 sys1 loc (n + 1)
    | some r =>
      let w := wait_ready obs final r
      let st2 : ManagerState :=
        match w.1 with
        | none => { st1 with streams := removeStream st1.streams camera_id }
        | some r1 => { st1 with streams := setStream st1.streams camera_id r1 }
      .ok st2 sys1 loc (n + 1)

/-- The reap condition of `StreamManager._check_timeouts` for one record:
idle longer than the configured timeout, or (elif) process observed dead. -/
def reapCond (s : Settings) (sys : SystemState) (now : Int) (r : StreamRecord) : Bool :=
  if s.stream_timeout_seconds < now - r.last_activity then true
  else if r.pid ∈ sys.alive then false
  else true

/-- The final loop of `_check_timeouts`: `for cam_id in to_stop: await
self.stop_stream(cam_id)`. -/
def stopEach : List Nat → ManagerState × SystemState → ManagerState × SystemState
  | [], acc => acc
  | i :: ids, acc => stopEach ids (stop_stream acc.1 acc.2 i)

/-- `StreamManager._check_timeouts`: collect the ids to stop (outside the
loop, against the current registry and process states), then stop each via
the ordinary `stop_stream` path. -/
def check_timeouts (s : Settings) (st : ManagerState) (sys : SystemState) (now : Int) :
    ManagerState × SystemState :=
  let to_stop := (st.streams.filter (fun p => reapCond s sys now p.2)).map Prod.fst
  stopEach to_stop (st, sys)

/-- Elapsed seconds of one `_terminate` call: terminating a live process
costs `min (delays pid) 5` (the process exits after `delays pid` seconds,
`asyncio.wait_for` gives up and kills after the 5-second grace); a dead or
absent one costs nothing. -/
def stopCost (delays : Nat → Nat) (st : ManagerState) (sys : SystemState) (id : Nat) : Nat :=
  match findStream st.streams id with
  | none => 0
  | some r => if r.pid ∈ sys.alive then min (delays r.pid) 5 else 0

/-- One step per camera id of `stop_all`'s loop, accounting elapsed time. -/
def stop_all_go (delays : Nat → Nat) :
    List Nat → ManagerState × SystemState × Nat → ManagerState × SystemState × Nat
  | [], acc => acc
  | id :: ids, (st, sys, t) =>
    let p := terminate st sys id
    stop_all_go delays ids (p.1, p.2, t + stopCost delays st sys id)

/-- `StreamManager.stop_all`: cancel the cleanup task, then — still holding
the lock — `_terminate` every registered camera id one after the other. The
third component is the total elapsed time of the sequential teardowns,
given per-pid exit delays. -/
def stop_all (st : ManagerState) (sys : SystemState) (delays : Nat → Nat) :
    ManagerState × SystemState × Nat :=
  stop_all_go delays (st.streams.map Prod.fst)
    ({ st with cleanup_running := false }, sys, 0)

/-!
Helper lemmas about the registry operations.
-/

theorem findStream_cons (k : Nat) (r : StreamRecord) (l : List (Nat × StreamRecord)) (id : Nat) :
    findStream ((k, r) :: l) id = if k = id then some r else findStream l id := rfl

theorem removeStream_cons (p : Nat × StreamRecord) (l : List (Nat × StreamRecord)) (id : Nat) :
    removeStream (p :: l) id =
      if p.1 = id then removeStream l id else p :: removeStream l id := by
  by_cases hp : p.1 = id <;> simp [removeStream, List.filter_cons, hp]

theorem findStream_eq_none_iff (l : List (Nat × StreamRecord)) (id : Nat) :
    findStream l id = none ↔ ∀ p ∈ l, p.1 ≠ id := by
  induction l with
  | nil => simp [findStream]
  | cons p rest ih =>
    obtain ⟨k, r⟩ := p
    by_cases hk : k = id
    · simp [findStream_cons, hk]
    · simp [findStream_cons, hk, ih]

theorem removeStream_of_none (l : List (Nat × StreamRecord)) (id : Nat)
    (h : findStream l id = none) : removeStream l id = l := by
  induction l with
  | nil => rfl
  | cons p rest ih =>
    rw [findStream_eq_none_iff] at h
    rw [removeStream_cons]
    have hp : p.1 ≠ id := h p (List.mem_cons_self p rest)
    rw [if_neg hp]
    rw [ih (by rw [findStream_eq_none_iff]; exact fun q hq => h q (List.mem_cons_of_mem p hq))]

theorem findStream_removeStream_self (l : List (Nat × StreamRecord)) (id : Nat) :
    findStream (removeStream l id) id = none := by
  induction l with
  | nil => rfl
  | cons p rest ih =>
    rw [removeStream_cons]
    by_cases hp : p.1 = id
    · rw [if_pos hp]; exact ih
    · rw [if_neg hp]
      obtain ⟨k, r⟩ := p
      rw [findStream_cons, if_neg hp]
      exact ih

theorem findStream_removeStream_ne (l : List (Nat × StreamRecord)) (j id : Nat)
    (h : j ≠ id) : findStream (removeStream l j) id = findStream l id := by
  induction l with
  | nil => rfl
  | cons p rest ih =>
    rw [removeStream_cons]
    by_cases hp : p.1 = j
    · rw [if_pos hp]
      obtain ⟨k, r⟩ := p
      rw [findStream_cons, if_neg (by simp only at hp; rw [hp]; exact h)]
      exact ih
    · rw [if_neg hp]
      obtain ⟨k, r⟩ := p
      by_cases hk : k = id
      · rw [findStream_cons, if_pos hk, findStream_cons, if_pos hk]
      · rw [findStream_cons, if_neg hk, findStream_cons, if_neg hk]
        exact ih

theorem any_key_eq_false_of_none (l : List (Nat × StreamRecord)) (id : Nat)
    (h : findStream l id = none) : l.any (fun p => p.1 = id) = false := by
  rw [findStream_eq_none_iff] at h
  simp only [List.any_eq_false]
  intro p hp
  simpa using h p hp

theorem findStream_append_none (l1 l2 : List (Nat × StreamRecord)) (id : Nat)
    (h : findStream l1 id = none) :
    findStream (l1 ++ l2) id = findStream l2 id := by
  induction l1 with
  | nil => rfl
  | cons p rest ih =>
    obtain ⟨k, r⟩ := p
    rw [findStream_eq_none_iff] at h
    have hk : k ≠ id := by simpa using h (k, r) (List.mem_cons_self _ _)
    rw [List.cons_append, findStream_cons, if_neg hk]
    exact ih (by rw [findStream_eq_none_iff]; exact fun q hq => h q (List.mem_cons_of_mem _ hq))

theorem findStream_map_replace_self (l : List (Nat × StreamRecord)) (id : Nat)
    (r : StreamRecord) (h : l.any (fun p => p.1 = id) = true) :
    findStream (l.map (fun p => if p.1 = id then (id, r) else p)) id = some r := by
  induction l with
  | nil => simp at h
  | cons p rest ih =>
    by_cases hp : p.1 = id
    · simp only [List.map_cons, if_pos hp]
      rw [findStream_cons, if_pos rfl]
    · simp only [List.any_cons, hp, decide_False, Bool.false_or] at h
      simp only [List.map_cons, if_neg hp]
      obtain ⟨k, r0⟩ := p
      rw [findStream_cons, if_neg hp]
      exact ih h

theorem findStream_map_replace_ne (l : List (Nat × StreamRecord)) (id j : Nat)
    (r : StreamRecord) (h : j ≠ id) :
    findStream (l.map (fun p => if p.1 = id then (id, r) else p)) j = findStream l j := by
  induction l with
  | nil => rfl
  | cons p rest ih =>
    obtain ⟨k, r0⟩ := p
    by_cases hp : k = id
    · simp only [List.map_cons, if_pos hp]
      rw [findStream_cons, if_neg (fun hc => h hc.symm), findStream_cons,
        if_neg (by rw [hp]; exact fun hc => h hc.symm)]
      exact ih
    · simp only [List.map_cons, if_neg hp]
      rw [findStream_cons, findStream_cons]
      by_cases hkj : k = j
      · rw [if_pos hkj, if_pos hkj]
      · rw [if_neg hkj, if_neg hkj]
        exact ih

theorem findStream_append_single_ne (l : List (Nat × StreamRecord)) (id j : Nat)
    (r : StreamRecord) (h : j ≠ id) :
    findStream (l ++ [(id, r)]) j = findStream l j := by
  induction l with
  | nil =>
    rw [List.nil_append, findStream_cons, if_neg (fun hc : id = j => h hc.symm)]
  | cons p rest ih =>
    obtain ⟨k, r0⟩ := p
    rw [List.cons_append, findStream_cons, findStream_cons]
    by_cases hkj : k = j
    · rw [if_pos hkj, if_pos hkj]
    · rw [if_neg hkj, if_neg hkj]
      exact ih

theorem findStream_setStream_self (l : List (Nat × StreamRecord)) (id : Nat) (r : StreamRecord) :
    findStream (setStream l id r) id = some r := by
  unfold setStream
  by_cases h : l.any (fun p => p.1 = id) = true
  · rw [if_pos h]
    exact findStream_map_replace_self l id r h
  · rw [if_neg h]
    have h0 : findStream l id = none := by
      rw [findStream_eq_none_iff]
      intro p hp hc
      exact h (List.any_eq_true.mpr ⟨p, hp, by simp [hc]⟩)
    rw [findStream_append_none l _ id h0, findStream_cons, if_pos rfl]

theorem findStream_setStream_ne (l : List (Nat × StreamRecord)) (id j : Nat) (r : StreamRecord)
    (h : j ≠ id) : findStream (setStream l id r) j = findStream l j := by
  unfold setStream
  by_cases ha : l.any (fun p => p.1 = id) = true
  · rw [if_pos ha]
    exact findStream_map_replace_ne l id j r h
  · rw [if_neg ha]
    exact findStream_append_single_ne l id j r h

/-!
Facts about `terminate` and the two loops built on top of it.
-/

theorem terminate_mgr (st : ManagerState) (sys : SystemState) (id : Nat) :
    (terminate st sys id).1 = { st with streams := removeStream st.streams id } := by
  unfold terminate
  cases h : findStream st.streams id with
  | none => simp only [removeStream_of_none st.streams id h]
  | some r => rfl

theorem terminate_cleanup (st : ManagerState) (sys : SystemState) (id : Nat) :
    (terminate st sys id).1.cleanup_running = st.cleanup_running := by
  rw [terminate_mgr]

theorem rmdir_alive (sys : SystemState) (d : String) : (rmdir sys d).alive = sys.alive := by
  unfold rmdir; split <;> rfl

theorem killPid_dirs (sys : SystemState) (p : Nat) : (killPid sys p).dirs = sys.dirs := by
  unfold killPid; split <;> rfl

theorem killPid_alive_sub (sys : SystemState) (p q : Nat)
    (h : q ∈ (killPid sys p).alive) : q ∈ sys.alive := by
  unfold killPid at h
  split at h
  · exact (List.mem_filter.mp h).1
  · exact h

theorem killPid_not_mem (sys : SystemState) (p : Nat) : p ∉ (killPid sys p).alive := by
  unfold killPid
  split
  · intro hc
    have := (List.mem_filter.mp hc).2
    simp at this
  · assumption

theorem rmdir_dirs_sub (sys : SystemState) (d x : String)
    (h : x ∈ (rmdir sys d).dirs) : x ∈ sys.dirs := by
  unfold rmdir at h
  split at h
  · exact (List.mem_filter.mp h).1
  · exact h

theorem rmdir_not_mem (sys : SystemState) (d : String) : d ∉ (rmdir sys d).dirs := by
  unfold rmdir
  split
  · intro hc
    have := (List.mem_filter.mp hc).2
    simp at this
  · assumption

theorem terminate_alive_sub (st : ManagerState) (sys : SystemState) (id p : Nat)
    (h : p ∈ (terminate st sys id).2.alive) : p ∈ sys.alive := by
  unfold terminate at h
  cases hf : findStream st.streams id with
  | none => rw [hf] at h; exact h
  | some r =>
    rw [hf] at h
    simp only at h
    rw [rmdir_alive] at h
    exact killPid_alive_sub sys r.pid p h

theorem terminate_dirs_sub (st : ManagerState) (sys : SystemState) (id : Nat) (d : String)
    (h : d ∈ (terminate st sys id).2.dirs) : d ∈ sys.dirs := by
  unfold terminate at h
  cases hf : findStream st.streams id with
  | none => rw [hf] at h; exact h
  | some r =>
    rw [hf] at h
    simp only at h
    have := rmdir_dirs_sub _ _ _ h
    rw [killPid_dirs] at this
    exact this

theorem terminate_kills (st : ManagerState) (sys : SystemState) (id : Nat) (r : StreamRecord)
    (h : findStream st.streams id = some r) :
    r.pid ∉ (terminate st sys id).2.alive := by
  unfold terminate
  rw [h]
  simp only
  rw [rmdir_alive]
  exact killPid_not_mem sys r.pid

theorem terminate_rmdir (st : ManagerState) (sys : SystemState) (id : Nat) (r : StreamRecord)
    (h : findStream st.streams id = some r) :
    r.hls_dir ∉ (terminate st sys id).2.dirs := by
  unfold terminate
  rw [h]
  simp only
  exact rmdir_not_mem _ r.hls_dir

theorem stopEach_find_ne (ids : List Nat) (id : Nat) (h : id ∉ ids) :
    ∀ acc : ManagerState × SystemState,
      findStream (stopEach ids acc).1.streams id = findStream acc.1.streams id := by
  induction ids with
  | nil => intro acc; rfl
  | cons i rest ih =>
    intro acc
    have hi : i ≠ id := fun hc => h (hc ▸ List.mem_cons_self i rest)
    have hrest : id ∉ rest := fun hc => h (List.mem_cons_of_mem i hc)
    show findStream (stopEach rest (stop_stream acc.1 acc.2 i)).1.streams id = _
    rw [ih hrest]
    show findStream (terminate acc.1 acc.2 i).1.streams id = _
    rw [terminate_mgr]
    exact findStream_removeStream_ne acc.1.streams i id hi

theorem stopEach_none (ids : List Nat) (id : Nat) :
    ∀ acc : ManagerState × SystemState, findStream acc.1.streams id = none →
      findStream (stopEach ids acc).1.streams id = none := by
  induction ids with
  | nil => intro acc h; exact h
  | cons i rest ih =>
    intro acc h
    show findStream (stopEach rest (stop_stream acc.1 acc.2 i)).1.streams id = none
    apply ih
    show findStream (terminate acc.1 acc.2 i).1.streams id = none
    rw [terminate_mgr]
    by_cases hi : i = id
    · rw [hi]; exact findStream_removeStream_self _ id
    · rw [findStream_removeStream_ne _ i id hi]; exact h

theorem stopEach_mem_none (ids : List Nat) (id : Nat) (h : id ∈ ids) :
    ∀ acc : ManagerState × SystemState,
      findStream (stopEach ids acc).1.streams id = none := by
  induction ids with
  | nil => exact absurd h (List.not_mem_nil id)
  | cons i rest ih =>
    intro acc
    by_cases hid : id ∈ rest
    · exact ih hid _
    · have hi : i = id := by
        rcases List.mem_cons.mp h with h1 | h2
        · exact h1.symm
        · exact absurd h2 hid
      show findStream (stopEach rest (stop_stream acc.1 acc.2 i)).1.streams id = none
      apply stopEach_none
      show findStream (terminate acc.1 acc.2 i).1.streams id = none
      rw [terminate_mgr, hi]
      exact findStream_removeStream_self _ id

theorem stopEach_alive_sub (ids : List Nat) (p : Nat) :
    ∀ acc : ManagerState × SystemState,
      p ∈ (stopEach ids acc).2.alive → p ∈ acc.2.alive := by
  induction ids with
  | nil => intro acc h; exact h
  | cons i rest ih =>
    intro acc h
    exact terminate_alive_sub acc.1 acc.2 i p (ih _ h)

theorem stopEach_dirs_sub (ids : List Nat) (d : String) :
    ∀ acc : ManagerState × SystemState,
      d ∈ (stopEach ids acc).2.dirs → d ∈ acc.2.dirs := by
  induction ids with
  | nil => intro acc h; exact h
  | cons i rest ih =>
    intro acc h
    exact terminate_dirs_sub acc.1 acc.2 i d (ih _ h)

theorem stopEach_kills (ids : List Nat) (id : Nat) (r : StreamRecord) (hnd : ids.Nodup)
    (hmem : id ∈ ids) :
    ∀ acc : ManagerState × SystemState, findStream acc.1.streams id = some r →
      r.pid ∉ (stopEach ids acc).2.alive ∧ r.hls_dir ∉ (stopEach ids acc).2.dirs := by
  induction ids with
  | nil => exact absurd hmem (List.not_mem_nil id)
  | cons i rest ih =>
    intro acc hfind
    have hnd2 := List.nodup_cons.mp hnd
    by_cases hi : i = id
    · have hkill := terminate_kills acc.1 acc.2 i r (hi ▸ hfind)
      have hdir := terminate_rmdir acc.1 acc.2 i r (hi ▸ hfind)
      constructor
      · exact fun hc => hkill (stopEach_alive_sub rest r.pid _ hc)
      · exact fun hc => hdir (stopEach_dirs_sub rest r.hls_dir _ hc)
    · have hidr : id ∈ rest := by
        rcases List.mem_cons.mp hmem with h1 | h2
        · exact absurd h1.symm hi
        · exact h2
      apply ih hnd2.2 hidr
      show findStream (terminate acc.1 acc.2 i).1.streams id = some r
      rw [terminate_mgr]
      rw [findStream_removeStream_ne _ i id hi]
      exact hfind

theorem stopEach_cleanup (ids : List Nat) :
    ∀ acc : ManagerState × SystemState,
      (stopEach ids acc).1.cleanup_running = acc.1.cleanup_running := by
  induction ids with
  | nil => intro acc; rfl
  | cons i rest ih =>
    intro acc
    show (stopEach rest (stop_stream acc.1 acc.2 i)).1.cleanup_running = _
    rw [ih]
    exact terminate_cleanup acc.1 acc.2 i

/-- With unique registry keys, an id with record `r` is selected by the
reaper scan exactly when the filter predicate holds of `r`. -/
theorem mem_filter_keys_iff (l : List (Nat × StreamRecord)) (q : Nat × StreamRecord → Bool)
    (id : Nat) (r : StreamRecord) (hnd : (l.map Prod.fst).Nodup)
    (h : findStream l id = some r) :
    id ∈ (l.filter q).map Prod.fst ↔ q (id, r) = true := by
  induction l with
  | nil => simp [findStream] at h
  | cons p rest ih =>
    obtain ⟨k, r0⟩ := p
    rw [List.map_cons, List.nodup_cons] at hnd
    by_cases hk : k = id
    · rw [findStream_cons, if_pos hk] at h
      have hp : ((k, r0) : Nat × StreamRecord) = (id, r) := by
        rw [hk, Option.some.inj h]
      rw [List.filter_cons]
      constructor
      · intro hmem
        by_cases hq : q (k, r0) = true
        · rw [hp] at hq; exact hq
        · rw [if_neg (by simpa using hq)] at hmem
          exfalso
          apply hnd.1
          rcases List.mem_map.mp hmem with ⟨p2, hp2, hfst⟩
          exact List.mem_map.mpr
            ⟨p2, (List.mem_filter.mp hp2).1, hfst.trans hk.symm⟩
      · intro hq
        rw [if_pos (by rw [hp]; simpa using hq)]
        rw [List.map_cons]
        exact hk ▸ List.mem_cons_self k _
    · rw [findStream_cons, if_neg hk] at h
      rw [List.filter_cons]
      by_cases hq : q (k, r0) = true
      · rw [if_pos (by simpa using hq), List.map_cons]
        rw [List.mem_cons]
        constructor
        · intro hmem
          rcases hmem with h1 | h2
          · exact absurd h1.symm hk
          · exact (ih hnd.2 h).mp h2
        · intro hqid
          exact Or.inr ((ih hnd.2 h).mpr hqid)
      · rw [if_neg (by simpa using hq)]
        exact ih hnd.2 h

/-- The reaper's `to_stop` list has no duplicate ids when the registry keys
are unique. -/
theorem filter_keys_nodup (l : List (Nat × StreamRecord)) (q : Nat × StreamRecord → Bool)
    (hnd : (l.map Prod.fst).Nodup) : ((l.filter q).map Prod.fst).Nodup :=
  List.Nodup.sublist (List.Sublist.map Prod.fst (List.filter_sublist l)) hnd

theorem stop_all_go_cleanup (delays : Nat → Nat) (ids : List Nat) :
    ∀ st sys t, (stop_all_go delays ids (st, sys, t)).1.cleanup_running = st.cleanup_running := by
  induction ids with
  | nil => intro st sys t; rfl
  | cons i rest ih =>
    intro st sys t
    show (stop_all_go delays rest _).1.cleanup_running = _
    rw [ih]
    exact terminate_cleanup st sys i

theorem stop_all_go_empties (delays : Nat → Nat) (ids : List Nat) :
    ∀ st sys t, (∀ p ∈ st.streams, p.1 ∈ ids) →
      (stop_all_go delays ids (st, sys, t)).1.streams = [] := by
  induction ids with
  | nil =>
    intro st sys t h
    show st.streams = []
    cases hs : st.streams with
    | nil => rfl
    | cons p rest => exact absurd (h p (hs ▸ List.mem_cons_self p rest)) (List.not_mem_nil p.1)
  | cons i rest ih =>
    intro st sys t h
    show (stop_all_go delays rest ((terminate st sys i).1, (terminate st sys i).2, _)).1.streams = []
    apply ih
    intro p hp
    rw [terminate_mgr] at hp
    simp only at hp
    have hp2 := List.mem_filter.mp hp
    have hne : p.1 ≠ i := by simpa using hp2.2
    rcases List.mem_cons.mp (h p hp2.1) with h1 | h2
    · exact absurd h1 hne
    · exact h2

theorem stopCost_le (delays : Nat → Nat) (st : ManagerState) (sys : SystemState) (id : Nat) :
    stopCost delays st sys id ≤ 5 := by
  unfold stopCost
  cases h : findStream st.streams id with
  | none =>
    exact Nat.zero_le 5
  | some r =>
    show (if r.pid ∈ sys.alive then min (delays r.pid) 5 else 0) ≤ 5
    split
    · exact Nat.min_le_right _ 5
    · exact Nat.zero_le 5

theorem stop_all_go_time (delays : Nat → Nat) (ids : List Nat) :
    ∀ st sys t, (stop_all_go delays ids (st, sys, t)).2.2 ≤ t + 5 * ids.length := by
  induction ids with
  | nil => intro st sys t; simp [stop_all_go]
  | cons i rest ih =>
    intro st sys t
    show (stop_all_go delays rest
      ((terminate st sys i).1, (terminate st sys i).2, t + stopCost delays st sys i)).2.2 ≤ _
    have h2 := stopCost_le delays st sys i
    generalize hc : stopCost delays st sys i = c at h2 ⊢
    have h1 := ih (terminate st sys i).1 (terminate st sys i).2 (t + c)
    simp only [List.length_cons]
    omega

/-!
Concrete states used by witnesses and counterexamples.
-/

/-- A small demonstration configuration. -/
def sDemo : Settings :=
  { hls_dir := "/srv/hls", ffmpeg_path := "ffmpeg", stream_timeout_seconds := 300,
    hls_segment_time := 2, hls_list_size := 6 }

/-- A demonstration record for camera 7 with pid 42. -/
def rDemo : StreamRecord :=
  { camera_id := 7, rtsp_url := "rtsp://cam7", pid := 42, hls_dir := "/srv/hls/7",
    started_at := 0, last_activity := 0, status := StreamStatus.starting }

/-- A manager holding only camera 7's record, cleanup task running. -/
def stOne : ManagerState := { streams := [(7, rDemo)], cleanup_running := true }

/-- System state in which camera 7's process is alive and its directory exists. -/
def sysOne : SystemState := { alive := [42], dirs := ["/srv/hls/7"] }

/-- The `"idle"` status dict. -/
def idleReport : StatusReport :=
  { status := "idle", hls_url := none, started_at := none, last_activity := none, pid := none }

/-- The `"error"`-only status dict returned for a dead process. -/
def errorReport : StatusReport :=
  { status := "error", hls_url := none, started_at := none, last_activity := none, pid := none }

/-!
The claims.
-/

/-- C6: `stop_stream` on a camera id with no record in the registry is a
no-op — it raises nothing and leaves the registry, every other record and
the filesystem state unchanged. -/
theorem stop_absent_noop (st : ManagerState) (sys : SystemState) (id : Nat)
    (h : findStream st.streams id = none) :
    stop_stream st sys id = (st, sys) := by
  show terminate st sys id = (st, sys)
  unfold terminate
  rw [h]

/-- C6 witness: stopping camera 9 on an empty registry changes nothing. -/
theorem stop_absent_noop_witness :
    stop_stream { streams := [], cleanup_running := true } { alive := [], dirs := [] } 9 =
      ({ streams := [], cleanup_running := true }, { alive := [], dirs := [] }) :=
  stop_absent_noop { streams := [], cleanup_running := true } { alive := [], dirs := [] } 9 rfl

/-- C5: after `stop_stream` completes for a camera with an active record,
`get_status` reports `idle` and the camera's output directory no longer
exists on the filesystem. -/
theorem stop_then_status_idle (s : Settings) (st : ManagerState) (sys : SystemState)
    (id : Nat) (r : StreamRecord) (h : findStream st.streams id = some r)
    (hdir : r.hls_dir = hlsDirOf s id) :
    (get_status (stop_stream st sys id).1 (stop_stream st sys id).2 id).1 = idleReport
    ∧ hlsDirOf s id ∉ (stop_stream st sys id).2.dirs := by
  constructor
  · have hnone : findStream (stop_stream st sys id).1.streams id = none := by
      show findStream (terminate st sys id).1.streams id = none
      rw [terminate_mgr]
      exact findStream_removeStream_self _ id
    unfold get_status
    rw [hnone]
    rfl
  · rw [← hdir]
    exact terminate_rmdir st sys id r h

/-- C5 witness: stopping camera 7 in the one-record state makes its status
idle and removes its directory. -/
theorem stop_then_status_idle_witness :
    (get_status (stop_stream stOne sysOne 7).1 (stop_stream stOne sysOne 7).2 7).1 = idleReport
    ∧ hlsDirOf sDemo 7 ∉ (stop_stream stOne sysOne 7).2.dirs :=
  stop_then_status_idle sDemo stOne sysOne 7 rDemo (by rfl) (by rfl)

/-- C9: `get_status` is a pure read — it leaves the manager state exactly
as it was for every camera id, and when the record's process is observed
dead it returns only `status = "error"` with no locator, timestamps or pid,
neither changing the stored `status` field nor removing the record. -/
theorem get_status_read_only (st : ManagerState) (sys : SystemState) (id : Nat) :
    (get_status st sys id).2 = st
    ∧ (∀ r, findStream st.streams id = some r → r.pid ∉ sys.alive →
        (get_status st sys id).1 = errorReport ∧
          findStream (get_status st sys id).2.streams id = some r) := by
  have h2 : (get_status st sys id).2 = st := by
    unfold get_status
    cases h : findStream st.streams id with
    | none => rfl
    | some r =>
      show ((if r.pid ∈ sys.alive then _ else _ : StatusReport × ManagerState)).2 = st
      split <;> rfl
  refine ⟨h2, ?_⟩
  intro r h hdead
  constructor
  · unfold get_status
    rw [h]
    show (if r.pid ∈ sys.alive then
        ({ status := statusString r.status, hls_url := some (hls_url id),
           started_at := some r.started_at, last_activity := some r.last_activity,
           pid := some r.pid }, st)
      else (errorReport, st)).1 = errorReport
    rw [if_neg hdead]
  · rw [h2]
    exact h

/-- C9 witness: with camera 7's process dead, the status call returns the
bare error dict and the registry still holds the record untouched. -/
theorem get_status_read_only_witness :
    (get_status stOne { alive := [], dirs := [] } 7).2 = stOne
    ∧ (get_status stOne { alive := [], dirs := [] } 7).1 = errorReport :=
  ⟨(get_status_read_only stOne { alive := [], dirs := [] } 7).1,
   ((get_status_read_only stOne { alive := [], dirs := [] } 7).2 rDemo rfl
     (by decide)).1⟩

/-- C10: `touch_activity` on a camera id with no record is a silent no-op;
on an existing record it rewrites only `last_activity`, leaving every other
field of the record, every other registry entry and the cleanup flag
unchanged. -/
theorem touch_activity_spec (st : ManagerState) (id : Nat) (now : Int) :
    (findStream st.streams id = none → touch_activity st id now = st)
    ∧ (∀ r, findStream st.streams id = some r →
        findStream (touch_activity st id now).streams id = some { r with last_activity := now }
        ∧ (∀ j, j ≠ id → findStream (touch_activity st id now).streams j =
            findStream st.streams j)
        ∧ (touch_activity st id now).cleanup_running = st.cleanup_running) := by
  constructor
  · intro h
    unfold touch_activity
    rw [h]
  · intro r h
    have hsome : touch_activity st id now =
        { st with streams := setStream st.streams id { r with last_activity := now } } := by
      unfold touch_activity
      rw [h]
    rw [hsome]
    refine ⟨findStream_setStream_self _ _ _, fun j hj => ?_, rfl⟩
    exact findStream_setStream_ne _ _ _ _ hj

/-- C10 witness: touching absent camera 9 changes nothing; touching camera 7
at time 50 only moves its `last_activity` to 50. -/
theorem touch_activity_spec_witness :
    touch_activity { streams := [], cleanup_running := true } 9 1 =
      { streams := [], cleanup_running := true }
    ∧ findStream (touch_activity stOne 7 50).streams 7 =
        some { rDemo with last_activity := 50 } :=
  ⟨(touch_activity_spec { streams := [], cleanup_running := true } 9 1).1 rfl,
   ((touch_activity_spec stOne 7 50).2 rDemo rfl).1⟩

/-- C2: each polling iteration of `_wait_ready` checks in priority order —
record gone: return immediately with no state change; process dead: mark
`error` and return; playlist non-empty: mark `streaming` and return;
otherwise poll again — and when the timeout expires with the process still
alive the record is marked `streaming`, not `error`. -/
theorem wait_ready_priority (rest : List WaitObs) (final : WaitObs) (r : StreamRecord)
    (sz : Nat) :
    wait_ready (WaitObs.gone :: rest) final r = (none, WaitOutcome.stoppedExternally)
    ∧ wait_ready (WaitObs.present false sz :: rest) final r =
        (some { r with status := StreamStatus.error }, WaitOutcome.markedError)
    ∧ (0 < sz → wait_ready (WaitObs.present true sz :: rest) final r =
        (some { r with status := StreamStatus.streaming }, WaitOutcome.markedStreaming))
    ∧ wait_ready (WaitObs.present true 0 :: rest) final r = wait_ready rest final r
    ∧ wait_ready [] (WaitObs.present true sz) r =
        (some { r with status := StreamStatus.streaming }, WaitOutcome.timedOutStreaming) := by
  refine ⟨rfl, rfl, ?_, ?_, rfl⟩
  · intro h
    show (if 0 < sz then
        ((some { r with status := StreamStatus.streaming }, WaitOutcome.markedStreaming) :
          Option StreamRecord × WaitOutcome)
      else wait_ready rest final r) = _
    rw [if_pos h]
  · show (if 0 < 0 then
        ((some { r with status := StreamStatus.streaming }, WaitOutcome.markedStreaming) :
          Option StreamRecord × WaitOutcome)
      else wait_ready rest final r) = _
    rw [if_neg (by omega)]

/-- C2 witness: a non-empty playlist (size 3) on the first poll marks the
demo record `streaming`. -/
theorem wait_ready_priority_witness :
    0 < 3 ∧ wait_ready [WaitObs.present true 3] WaitObs.gone rDemo =
      (some { rDemo with status := StreamStatus.streaming }, WaitOutcome.markedStreaming) :=
  ⟨by decide, (wait_ready_priority [] WaitObs.gone rDemo 3).2.2.1 (by decide)⟩

/-- Pid of a fresh spawn is alive afterwards. -/
theorem mem_addAlive (sys : SystemState) (pid : Nat) : pid ∈ (addAlive sys pid).alive := by
  unfold addAlive
  split
  · assumption
  · simp

/-- C1 (amended): a second start request arriving while a live record for
the same id exists spawns nothing — the two calls spawn exactly one process
in total — the second call only refreshes `last_activity`, both calls
return the same output locator, and for id 5 that locator is
`/hls/5/index.m3u8`. -/
theorem second_start_coalesces (s : Settings) (st : ManagerState) (sys : SystemState)
    (id : Nat) (url : String) (now1 now2 : Int) (pid : Nat) (spawn2 : Option Nat)
    (h0 : findStream st.streams id = none) :
    ∃ st1 sys1,
      start_stream_locked s st sys id url now1 (some pid) =
        StartResult.ok st1 sys1 (hls_url id) 1
      ∧ start_stream_locked s st1 sys1 id url now2 spawn2 =
          StartResult.ok
            { st1 with streams := (setStream st1.streams id
                ({ newRecord s id url now1 pid with last_activity := now2 })) }
            sys1 (hls_url id) 0
      ∧ hls_url 5 = "/hls/5/index.m3u8" := by
  refine ⟨{ st with streams := setStream st.streams id (newRecord s id url now1 pid) },
    addAlive (mkdirP sys (hlsDirOf s id)) pid, ?_, ?_, rfl⟩
  · unfold start_stream_locked
    rw [h0]
    rfl
  · have hfind : findStream
        (setStream st.streams id (newRecord s id url now1 pid)) id =
        some (newRecord s id url now1 pid) :=
      findStream_setStream_self st.streams id (newRecord s id url now1 pid)
    have hmem : (newRecord s id url now1 pid).pid ∈
        (addAlive (mkdirP sys (hlsDirOf s id)) pid).alive :=
      mem_addAlive (mkdirP sys (hlsDirOf s id)) pid
    unfold start_stream_locked
    rw [hfind]
    show (if (newRecord s id url now1 pid).pid ∈ (addAlive (mkdirP sys (hlsDirOf s id)) pid).alive
        then _ else _ : StartResult) = _
    rw [if_pos hmem]

/-- C1 counterexample: the locator actually returned for camera 5 is
`/hls/5/index.m3u8`, not `/stream/5/playlist` as the claim states. -/
theorem start_locator_not_stream_playlist :
    (start_stream_locked sDemo { streams := [], cleanup_running := false }
        { alive := [], dirs := [] } 5 "rtsp://a" 0 (some 100)).locator =
      some "/hls/5/index.m3u8"
    ∧ (start_stream_locked sDemo { streams := [], cleanup_running := false }
        { alive := [], dirs := [] } 5 "rtsp://a" 0 (some 100)).locator ≠
      some "/stream/5/playlist" := by
  constructor
  · decide
  · decide

/-- C1 witness: the double-start scenario for camera 5 from the empty
registry, with the second call's spawn oracle even failing — one spawn,
matching locators. -/
theorem second_start_coalesces_witness :
    ∃ st1 sys1,
      start_stream_locked sDemo { streams := [], cleanup_running := false }
          { alive := [], dirs := [] } 5 "rtsp://a" 10 (some 100) =
        StartResult.ok st1 sys1 (hls_url 5) 1
      ∧ start_stream_locked sDemo st1 sys1 5 "rtsp://a" 20 none =
          StartResult.ok
            { st1 with streams := (setStream st1.streams 5
                ({ newRecord sDemo 5 "rtsp://a" 10 100 with last_activity := 20 })) }
            sys1 (hls_url 5) 0
      ∧ hls_url 5 = "/hls/5/index.m3u8" :=
  second_start_coalesces sDemo { streams := [], cleanup_running := false }
    { alive := [], dirs := [] } 5 "rtsp://a" 10 20 100 none rfl

/-- Whether a live record exists for the id: a record is registered and its
process still runs. -/
def hasLive (st : ManagerState) (sys : SystemState) (id : Nat) : Bool :=
  match findStream st.streams id with
  | none => false
  | some r => decide (r.pid ∈ sys.alive)

theorem spawnPath_isLaunchError (s : Settings) (st : ManagerState) (sys : SystemState)
    (id : Nat) (url : String) (now : Int) (spawn : Option Nat) :
    (spawnPath s st sys id url now spawn).isLaunchError = true ↔ spawn = none := by
  cases spawn with
  | none => simp [spawnPath, StartResult.isLaunchError]
  | some pid => simp [spawnPath, StartResult.isLaunchError]

theorem start_stream_locked_isLaunchError (s : Settings) (st : ManagerState)
    (sys : SystemState) (id : Nat) (url : String) (now : Int) (spawn : Option Nat) :
    (start_stream_locked s st sys id url now spawn).isLaunchError = true ↔
      spawn = none ∧ hasLive st sys id = false := by
  unfold start_stream_locked hasLive
  cases h : findStream st.streams id with
  | none =>
    simp only
    rw [spawnPath_isLaunchError]
    simp
  | some r =>
    simp only
    by_cases hm : r.pid ∈ sys.alive
    · rw [if_pos hm]
      simp [StartResult.isLaunchError, hm]
    · rw [if_neg hm]
      rw [spawnPath_isLaunchError]
      simp [hm]

theorem StartResult.isOk_eq (res : StartResult) : res.isOk = !res.isLaunchError := by
  cases res <;> rfl

theorem start_stream_isLaunchError_eq (s : Settings) (st : ManagerState) (sys : SystemState)
    (id : Nat) (url : String) (now : Int) (spawn : Option Nat)
    (obs : List WaitObs) (final : WaitObs) :
    (start_stream s st sys id url now spawn obs final).isLaunchError =
      (start_stream_locked s st sys id url now spawn).isLaunchError := by
  unfold start_stream
  cases hl : start_stream_locked s st sys id url now spawn with
  | launchError st1 sys1 => rfl
  | ok st1 sys1 loc n =>
    cases n with
    | zero => rfl
    | succ m =>
      show (match findStream st1.streams id with
        | none => StartResult.ok st1 sys1 loc (m + 1)
        | some r =>
          StartResult.ok
            (match (wait_ready obs final r).1 with
              | none => { st1 with streams := removeStream st1.streams id }
              | some r1 => { st1 with streams := setStream st1.streams id r1 })
            sys1 loc (m + 1)).isLaunchError = false
      cases hf : findStream st1.streams id with
      | none => rfl
      | some r => rfl

/-- C3: a start request raises the launch `RuntimeError` synchronously
exactly when the spawn fails (no live record to reuse and the executable
missing or unspawnable); whenever the spawn succeeds the call returns
normally for every subsequent behaviour of the process — a post-spawn
death is never raised to the initiating caller. -/
theorem start_error_only_at_spawn (s : Settings) (st : ManagerState) (sys : SystemState)
    (id : Nat) (url : String) (now : Int) (spawn : Option Nat)
    (obs : List WaitObs) (final : WaitObs) :
    ((start_stream s st sys id url now spawn obs final).isLaunchError = true ↔
      spawn = none ∧ hasLive st sys id = false)
    ∧ (∀ pid, spawn = some pid →
        (start_stream s st sys id url now spawn obs final).isOk = true) := by
  constructor
  · rw [start_stream_isLaunchError_eq]
    exact start_stream_locked_isLaunchError s st sys id url now spawn
  · intro pid hs
    rw [StartResult.isOk_eq, start_stream_isLaunchError_eq]
    have hb : (start_stream_locked s st sys id url now spawn).isLaunchError = false := by
      by_cases hc : (start_stream_locked s st sys id url now spawn).isLaunchError = true
      · have h2 := (start_stream_locked_isLaunchError s st sys id url now spawn).mp hc
        rw [hs] at h2
        exact absurd h2.1 (by simp)
      · exact Bool.eq_false_iff.mpr hc
    simp [hb]

/-- C3 witness: with the process of a fresh spawn dying before readiness
(observation: dead at first poll), the call still returns normally. -/
theorem start_error_only_at_spawn_witness :
    (start_stream sDemo { streams := [], cleanup_running := false } { alive := [], dirs := [] }
        5 "rtsp://a" 0 (some 100) [WaitObs.present false 0] WaitObs.gone).isOk = true :=
  (start_error_only_at_spawn sDemo { streams := [], cleanup_running := false }
      { alive := [], dirs := [] } 5 "rtsp://a" 0 (some 100)
      [WaitObs.present false 0] WaitObs.gone).2 100 rfl

/-- The directory is present after `mkdir(parents=True, exist_ok=True)`. -/
theorem mem_mkdirP (sys : SystemState) (d : String) : d ∈ (mkdirP sys d).dirs := by
  unfold mkdirP
  split
  · assumption
  · simp

/-- A record for camera 3 whose process (pid 99) has already died. -/
def rDead : StreamRecord :=
  { camera_id := 3, rtsp_url := "rtsp://dead", pid := 99, hls_dir := "/srv/hls/3",
    started_at := 0, last_activity := 0, status := StreamStatus.starting }

/-- A manager holding only the dead camera-3 record. -/
def stDead : ManagerState := { streams := [(3, rDead)], cleanup_running := true }

/-- System state in which no process is alive and camera 3's directory exists. -/
def sysDead : SystemState := { alive := [], dirs := ["/srv/hls/3"] }

/-- C8 counterexample: a start request over an existing dead record whose
spawn then fails raises the launch error, yet the registry is changed — the
dead record was cleaned up before the spawn attempt — refuting the claim
that the registry is unchanged on launch error. -/
theorem start_error_registry_changed :
    (start_stream_locked sDemo stDead sysDead 3 "rtsp://dead" 0 none).isLaunchError = true
    ∧ (start_stream_locked sDemo stDead sysDead 3 "rtsp://dead" 0 none).mgrState ≠ stDead := by
  constructor
  · decide
  · decide

/-- C8 (amended): when a start request fails at spawn, no record for the id
is registered afterwards (the registry is unchanged exactly when no record
existed before; a pre-existing dead record has been removed), while the
output directory created before the spawn attempt is left on disk — the
start operation is not atomic with respect to filesystem state on error. -/
theorem start_error_leaves_dir (s : Settings) (st : ManagerState) (sys : SystemState)
    (id : Nat) (url : String) (now : Int) (h : hasLive st sys id = false) :
    ∃ st1 sys1,
      start_stream_locked s st sys id url now none = StartResult.launchError st1 sys1
      ∧ findStream st1.streams id = none
      ∧ hlsDirOf s id ∈ sys1.dirs
      ∧ (findStream st.streams id = none → st1 = st) := by
  unfold hasLive at h
  cases hf : findStream st.streams id with
  | none =>
    refine ⟨st, mkdirP sys (hlsDirOf s id), ?_, hf, mem_mkdirP sys (hlsDirOf s id), fun _ => rfl⟩
    unfold start_stream_locked
    rw [hf]
    rfl
  | some r =>
    rw [hf] at h
    have hm : r.pid ∉ sys.alive := by simpa using h
    refine ⟨(terminate st sys id).1, mkdirP (terminate st sys id).2 (hlsDirOf s id), ?_, ?_,
      mem_mkdirP _ (hlsDirOf s id), fun hc => Option.noConfusion hc⟩
    · unfold start_stream_locked
      rw [hf]
      show (if r.pid ∈ sys.alive then _ else _ : StartResult) = _
      rw [if_neg hm]
      rfl
    · rw [terminate_mgr]
      exact findStream_removeStream_self st.streams id

/-- C8 witness: the dead-record state with spawn failing — the launch error
is raised, no record remains for camera 3 and its directory is on disk. -/
theorem start_error_leaves_dir_witness :
    ∃ st1 sys1,
      start_stream_locked sDemo stDead sysDead 3 "rtsp://dead" 0 none =
        StartResult.launchError st1 sys1
      ∧ findStream st1.streams 3 = none
      ∧ hlsDirOf sDemo 3 ∈ sys1.dirs
      ∧ (findStream stDead.streams 3 = none → st1 = stDead) :=
  start_error_leaves_dir sDemo stDead sysDead 3 "rtsp://dead" 0 (by decide)

theorem reapCond_true_iff (s : Settings) (sys : SystemState) (now : Int) (r : StreamRecord) :
    reapCond s sys now r = true ↔
      (s.stream_timeout_seconds < now - r.last_activity ∨ r.pid ∉ sys.alive) := by
  unfold reapCond
  by_cases h1 : s.stream_timeout_seconds < now - r.last_activity
  · rw [if_pos h1]
    simp [h1]
  · rw [if_neg h1]
    by_cases h2 : r.pid ∈ sys.alive
    · rw [if_pos h2]
      simp [h1, h2]
    · rw [if_neg h2]
      simp [h2]

theorem check_timeouts_eq (s : Settings) (st : ManagerState) (sys : SystemState) (now : Int) :
    check_timeouts s st sys now =
      stopEach ((st.streams.filter (fun p => reapCond s sys now p.2)).map Prod.fst)
        (st, sys) := rfl

/-- C4: a reaper cycle reclaims a record exactly when its idle duration
exceeds the configured timeout or its process is observed dead; a record
touched within the threshold whose process lives survives untouched; and a
reclaimed record goes through the same stop path as a caller-initiated
stop — registry removal, process termination and directory deletion. -/
theorem reaper_reclaims_iff (s : Settings) (st : ManagerState) (sys : SystemState)
    (now : Int) (id : Nat) (r : StreamRecord)
    (hnd : (st.streams.map Prod.fst).Nodup)
    (h : findStream st.streams id = some r) :
    (findStream (check_timeouts s st sys now).1.streams id = none ↔
      (s.stream_timeout_seconds < now - r.last_activity ∨ r.pid ∉ sys.alive))
    ∧ ((now - r.last_activity ≤ s.stream_timeout_seconds ∧ r.pid ∈ sys.alive) →
        findStream (check_timeouts s st sys now).1.streams id = some r)
    ∧ ((s.stream_timeout_seconds < now - r.last_activity ∨ r.pid ∉ sys.alive) →
        r.pid ∉ (check_timeouts s st sys now).2.alive
        ∧ r.hls_dir ∉ (check_timeouts s st sys now).2.dirs) := by
  have hmem : id ∈ (st.streams.filter (fun p => reapCond s sys now p.2)).map Prod.fst ↔
      reapCond s sys now r = true := by
    have := mem_filter_keys_iff st.streams (fun p => reapCond s sys now p.2) id r hnd h
    simpa using this
  have hnd2 : ((st.streams.filter (fun p => reapCond s sys now p.2)).map Prod.fst).Nodup :=
    filter_keys_nodup st.streams (fun p => reapCond s sys now p.2) hnd
  have hsurv : reapCond s sys now r = false →
      findStream (check_timeouts s st sys now).1.streams id = some r := by
    intro hc
    rw [check_timeouts_eq]
    rw [stopEach_find_ne _ id (fun hin => by rw [hmem.mp hin] at hc; exact Bool.noConfusion hc)]
    exact h
  refine ⟨⟨?_, ?_⟩, ?_, ?_⟩
  · intro hnone
    by_cases hc : reapCond s sys now r = true
    · exact (reapCond_true_iff s sys now r).mp hc
    · rw [hsurv (Bool.eq_false_iff.mpr hc)] at hnone
      exact Option.noConfusion hnone
  · intro hcond
    rw [check_timeouts_eq]
    exact stopEach_mem_none _ id (hmem.mpr ((reapCond_true_iff s sys now r).mpr hcond)) _
  · intro hcond
    apply hsurv
    rcases Bool.eq_false_or_eq_true (reapCond s sys now r) with hb | hb
    · exfalso
      have hle := hcond.1
      rcases (reapCond_true_iff s sys now r).mp hb with h1 | h2
      · omega
      · exact h2 hcond.2
    · exact hb
  · intro hcond
    rw [check_timeouts_eq]
    exact stopEach_kills _ id r hnd2 (hmem.mpr ((reapCond_true_iff s sys now r).mpr hcond))
      (st, sys) h

/-- C4 witness: camera 7, idle for 1000 s against a 300 s timeout, is gone
from the registry after one reaper cycle. -/
theorem reaper_reclaims_iff_witness :
    findStream (check_timeouts sDemo stOne sysOne 1000).1.streams 7 = none :=
  (reaper_reclaims_iff sDemo stOne sysOne 1000 7 rDemo (by decide) rfl).1.mpr
    (Or.inl (by decide))

/-- A live record for camera 1 (pid 101). -/
def rA : StreamRecord :=
  { camera_id := 1, rtsp_url := "rtsp://a", pid := 101, hls_dir := "/srv/hls/1",
    started_at := 0, last_activity := 0, status := StreamStatus.streaming }

/-- A live record for camera 2 (pid 102). -/
def rB : StreamRecord :=
  { camera_id := 2, rtsp_url := "rtsp://b", pid := 102, hls_dir := "/srv/hls/2",
    started_at := 0, last_activity := 0, status := StreamStatus.streaming }

/-- A manager with two live records, cleanup task running. -/
def stTwo : ManagerState := { streams := [(1, rA), (2, rB)], cleanup_running := true }

/-- System state in which both pids run and both directories exist. -/
def sysTwo : SystemState :=
  { alive := [101, 102], dirs := ["/srv/hls/1", "/srv/hls/2"] }

/-- C7 counterexample: with two live records whose processes both ignore the
terminate signal (exit delay 7 s, capped by the 5 s grace), `stop_all` takes
10 s — the sum of the two grace periods — exceeding their maximum of 5 s,
because the `for` loop tears records down sequentially, not concurrently. -/
theorem stop_all_serial_not_max :
    (stop_all stTwo sysTwo (fun _ => 7)).2.2 = 10
    ∧ ¬ ((stop_all stTwo sysTwo (fun _ => 7)).2.2 ≤ max 5 5) := by
  constructor
  · decide
  · decide

/-- C7 (amended): supervisor shutdown cancels the reaper task and
force-stops every registered record — the registry is empty afterwards —
but the per-record teardowns run one after the other inside the lock, so
the total shutdown time is bounded only by the sum of the per-record grace
periods (5 s each), which the serial loop can reach. -/
theorem stop_all_shutdown_spec (st : ManagerState) (sys : SystemState) (delays : Nat → Nat) :
    (stop_all st sys delays).1.streams = []
    ∧ (stop_all st sys delays).1.cleanup_running = false
    ∧ (stop_all st sys delays).2.2 ≤ 5 * st.streams.length := by
  refine ⟨?_, ?_, ?_⟩
  · unfold stop_all
    apply stop_all_go_empties
    intro p hp
    exact List.mem_map.mpr ⟨p, hp, rfl⟩
  · unfold stop_all
    rw [stop_all_go_cleanup]
  · unfold stop_all
    have h := stop_all_go_time delays (st.streams.map Prod.fst)
      { st with cleanup_running := false } sys 0
    simpa [List.length_map] using h
